import Mathlib

/-!
Formal model of the nu-mcp execution core.

The definitions below are a shallow embedding of the Rust sources:
  * `src/state.rs`  — bounded line buffer (`push_truncated`), job registry (`AppState`)
  * `src/exec.rs`   — blocking execution with the CWD sentinel, background
                      registration, the supervisor's final writes, `read_output`,
                      `kill_process`
  * `src/main.rs`   — the `nu.exec` tool's handling of the optional `cwd` argument

Rust `String`s are UTF-8 byte vectors; buffer-level code (`push_truncated`)
is modelled on `Bytes := List Nat` (each element a byte value), and the
sentinel / working-directory logic of `exec_blocking` on `Str := List Char`
(the sentinel is pure ASCII, so a byte-index match in the Rust code is the
same as a character-index match).  Rust operations that can panic (slicing a
`str` at a byte index that is not a character boundary) return `Option`,
with `none` standing for the panic.
-/

/-- Byte strings: the contents of a Rust `String`, one `Nat` per byte. -/
abbrev Bytes := List Nat

/-- Character strings, for the sentinel / working-directory logic. -/
abbrev Str := List Char

/-- UTF-8 bytes of the truncation marker `"\n... <truncated> ..."`
(`src/state.rs` lines 67 and 71). -/
def marker : Bytes :=
  [10, 46, 46, 46, 32, 60, 116, 114, 117, 110, 99, 97, 116, 101, 100, 62, 32, 46, 46, 46]

/-- Rust `str::is_char_boundary`: `true` at 0, at the length, and at any byte
that is not a UTF-8 continuation byte (`b < 0x80 || b >= 0xC0`). -/
def isCharBoundary (s : Bytes) (i : Nat) : Bool :=
  if i = 0 then true
  else
    match s[i]? with
    | none => i == s.length
    | some b => decide (b < 128 ∨ 192 ≤ b)

/-- Rust `&s[..i]` on a `str`: the first `i` bytes, panicking (`none`) when
`i` is not a character boundary of `s`. -/
def sliceTo (s : Bytes) (i : Nat) : Option Bytes :=
  if isCharBoundary s i then some (s.take i) else none

/-- Rust `String::truncate(i)`: a no-op when `i ≥ len`, otherwise keeps the
first `i` bytes, panicking (`none`) when `i` is not a character boundary. -/
def truncateStr (s : Bytes) (i : Nat) : Option Bytes :=
  if s.length ≤ i then some s
  else if isCharBoundary s i then some (s.take i) else none

/-- Embedding of `push_truncated` (`src/state.rs` lines 62–76).
`none` models a Rust panic in the byte slicing / truncation. -/
def pushTruncated (buffer data : Bytes) (maxSize : Nat) : Option Bytes :=
  if buffer.length + data.length > maxSize then
    let remaining := maxSize - 100
    if data.length > remaining then
      (sliceTo data remaining).map (fun kept => buffer ++ kept ++ marker)
    else
      (truncateStr buffer remaining).map (fun b => b ++ data ++ marker)
  else
    some (buffer ++ data)

/-- Whether `ned` occurs at the front of `l` (Rust `str::starts_with`, used
to characterise `str::find`). -/
def isPre {α : Type} [DecidableEq α] : List α → List α → Bool
  | [], _ => true
  | _ :: _, [] => false
  | n :: ns, h :: hs => n == h && isPre ns hs

/-- Rust `haystack.find(needle)`: byte index of the first occurrence. -/
def listFind {α : Type} [DecidableEq α] (hay ned : List α) : Option Nat :=
  match hay with
  | [] => if isPre ned ([] : List α) then some 0 else none
  | a :: t => if isPre ned (a :: t) then some 0 else (listFind t ned).map (· + 1)

/-- Whitespace as trimmed by Rust `trim` / `trim_end` (the ASCII subset,
which is all that the sentinel protocol produces). -/
def isWS (c : Char) : Bool := c == ' ' || c == '\t' || c == '\n' || c == '\r'

/-- Rust `str::trim_start`. -/
def ltrimStr (s : Str) : Str := s.dropWhile isWS

/-- Rust `str::trim_end`. -/
def rtrimStr (s : Str) : Str := (s.reverse.dropWhile isWS).reverse

/-- Rust `str::trim`. -/
def trimStr (s : Str) : Str := ltrimStr (rtrimStr s)

/-- Drop one trailing carriage return (Rust `lines` strips `\r` from a line
that was terminated by `\n`). -/
def stripCr (l : Str) : Str :=
  match l.getLast? with
  | some '\r' => l.dropLast
  | _ => l

/-- Rust `s.lines().next()`: `none` on the empty string, otherwise the text
up to the first `\n` (with a trailing `\r` stripped when the `\n` exists). -/
def firstLine (s : Str) : Option Str :=
  match s with
  | [] => none
  | _ :: _ =>
    let l := s.takeWhile (fun c => c != '\n')
    if l.length < s.length then some (stripCr l) else some l

/-- The sentinel token `":::CWD:::"` (`src/exec.rs` line 136). -/
def sentinelStr : Str := ":::CWD:::".data

/-- Literal text before the interpolated cwd in both wrappers:
`"try { cd '"` (`src/exec.rs` lines 137 and 267). -/
def wrapGuardPre : Str := "try \x7b cd \x27".data

/-- Literal text after the interpolated cwd: `"' }; "`. -/
def wrapGuardPost : Str := "\x27 \x7d; ".data

/-- Literal tail appended only on the blocking path:
`"; print $\":::CWD:::(pwd)\""` (`src/exec.rs` line 137). -/
def wrapEmitTail : Str := "; print $\"".data ++ sentinelStr ++ "(pwd)\"".data

/-- Wrapped command of the blocking path (`src/exec.rs` line 137). -/
def wrapBlocking (cwd cmd : Str) : Str :=
  wrapGuardPre ++ cwd ++ wrapGuardPost ++ cmd ++ wrapEmitTail

/-- Wrapped command of the background path (`src/exec.rs` line 267):
only the directory-enter guard, no sentinel emission. -/
def wrapBackground (cwd cmd : Str) : Str :=
  wrapGuardPre ++ cwd ++ wrapGuardPost ++ cmd

/-- No occurrence of the sentinel token anywhere in `s`. -/
def sentinelFree (s : Str) : Prop := ∀ i, isPre sentinelStr (s.drop i) = false

/-- Result of a blocking call (`NuExecResult`, `src/exec.rs` lines 693–699;
`took_ms` is wall-clock time and is not modelled). -/
structure NuExecResult where
  exitCode : Int
  output : Str
  success : Bool
deriving DecidableEq

/-- The sentinel scan of `exec_blocking` (`src/exec.rs` lines 219–240).
Returns `(clean_output, new_cwd, wrote)`, where `wrote` records whether the
found-branch ran `state.set_cwd`. -/
def extractCwd (cwd0 stdoutFinal : Str) : Str × Str × Bool :=
  match listFind stdoutFinal sentinelStr with
  | some idx =>
    let after := stdoutFinal.drop (idx + sentinelStr.length)
    let extracted :=
      match firstLine after with
      | some l => trimStr l
      | none => cwd0
    (rtrimStr (stdoutFinal.take idx), extracted, true)
  | none => (stdoutFinal, cwd0, false)

/-- Embedding of `exec_blocking` (`src/exec.rs` lines 123–254) after the
child has been raced against the timeout.  `timedOut` tells which branch of
the `select!` won; `childCode` is `status.code()` when the child exited
(`none` meaning no platform exit code, mapped to `-1`); `stdoutFinal` and
`stderrFinal` are the drained buffer contents at collection time.  Returns
the `NuExecResult` and the session working directory after the call. -/
def execBlocking (cwd0 : Str) (timedOut : Bool) (childCode : Option Int)
    (stdoutFinal stderrFinal : Str) : NuExecResult × Str :=
  let exitCode : Int := if timedOut then -1 else childCode.getD (-1)
  let e := extractCwd cwd0 stdoutFinal
  ({ exitCode := exitCode
     output := e.1 ++ (if stderrFinal ≠ [] then "\n[stderr]\n".data ++ stderrFinal else [])
     success := (!timedOut) && (exitCode == 0) },
   if e.2.2 then e.2.1 else cwd0)

/-- Job status (`ProcessStatus`, `src/state.rs` lines 28–32). -/
inductive PStatus
  | running
  | completed
  | failed
deriving DecidableEq

/-- One job record (`ProcessInfo`, `src/state.rs` lines 11–24).
`childPresent` models the `Option<Child>` slot: `true` while the process
handle is still inside the record, `false` once taken.  `started_at` is a
wall-clock instant and is not modelled. -/
structure JobRecord where
  childPresent : Bool
  command : Str
  stdoutBuf : Bytes
  stderrBuf : Bytes
  exitCode : Option Int
  status : PStatus
deriving DecidableEq

/-- Fresh record as built by `ProcessInfo::new` (`src/state.rs` lines 43–53). -/
def JobRecord.new (cmd : Str) : JobRecord :=
  { childPresent := true, command := cmd, stdoutBuf := [], stderrBuf := []
    exitCode := none, status := PStatus.running }

/-- The concurrent job map, as a partial function from id to record. -/
abbrev Registry := Str → Option JobRecord

/-- Global application state (`AppState`, `src/state.rs` lines 80–83). -/
structure AppState where
  processes : Registry
  cwd : Str

/-- State with no registered jobs. -/
def emptyState (cwd : Str) : AppState := { processes := fun _ => none, cwd := cwd }

/-- `AppState::set_cwd` (`src/state.rs` lines 103–105). -/
def AppState.setCwd (s : AppState) (path : Str) : AppState := { s with cwd := path }

/-- `AppState::register_process` (`src/state.rs` lines 114–117). -/
def AppState.registerProcess (s : AppState) (id cmd : Str) : AppState :=
  { s with processes := fun k => if k = id then some (JobRecord.new cmd) else s.processes k }

/-- `AppState::remove_process` (`src/state.rs` lines 120–122): returns the
removed record (if any) and the map without it. -/
def AppState.removeProcess (s : AppState) (id : Str) : Option JobRecord × AppState :=
  match s.processes id with
  | none => (none, s)
  | some r =>
    (some r, { s with processes := fun k => if k = id then none else s.processes k })

/-- Update the record stored under `id`, if present (a write through the
record's `Arc`-shared fields while it is still in the map). -/
def AppState.updateRecord (s : AppState) (id : Str) (f : JobRecord → JobRecord) : AppState :=
  { s with processes := fun k => if k = id then (s.processes k).map f else s.processes k }

/-- `AppState::take_child` (`src/state.rs` lines 125–128): `some ()` and the
emptied slot when the handle was still present, `none` otherwise. -/
def AppState.takeChild (s : AppState) (id : Str) : Option Unit × AppState :=
  match s.processes id with
  | none => (none, s)
  | some r =>
    if r.childPresent then
      (some (), s.updateRecord id (fun rr => { rr with childPresent := false }))
    else (none, s)

/-- Read-only view of a record (`ProcessSnapshot`, `src/state.rs` lines
177–185; `started_at_secs` is wall-clock time and is not modelled). -/
structure ProcessSnapshot where
  id : Str
  command : Str
  status : PStatus
  exitCode : Option Int
  stdout : Bytes
  stderr : Bytes
deriving DecidableEq

/-- `AppState::get_process` (`src/state.rs` lines 131–159). -/
def AppState.getProcess (s : AppState) (id : Str) : Option ProcessSnapshot :=
  (s.processes id).map (fun r =>
    { id := id, command := r.command, status := r.status, exitCode := r.exitCode
      stdout := r.stdoutBuf, stderr := r.stderrBuf })

/-- Errors surfaced by the registry operations (`anyhow` errors in the code:
`"Process {id} not found"` and `"Failed to kill: {e}"`). -/
inductive ExecErr
  | notFound
  | killFailed
deriving DecidableEq

/-- Result of `kill_process` (`NuKillResult`, `src/exec.rs` lines 717–722). -/
structure NuKillResult where
  id : Str
  status : Str
  command : Str
deriving DecidableEq

/-- Embedding of `kill_process` (`src/exec.rs` lines 319–353): remove the
record, then take the child out of the removed record and kill it.
`killOk` is the outcome of the `child.kill()` syscall when it is attempted. -/
def killProcess (s : AppState) (id : Str) (killOk : Bool) :
    Except ExecErr NuKillResult × AppState :=
  match s.removeProcess id with
  | (some info, s1) =>
    if info.childPresent then
      if killOk then (Except.ok ⟨id, "killed".data, info.command⟩, s1)
      else (Except.error ExecErr.killFailed, s1)
    else (Except.ok ⟨id, "already_exited".data, info.command⟩, s1)
  | (none, s1) => (Except.error ExecErr.notFound, s1)

/-- Lowercased status text, `format!("{:?}", status).to_lowercase()`
(`src/exec.rs` line 309). -/
def statusName : PStatus → Str
  | PStatus.running => "running".data
  | PStatus.completed => "completed".data
  | PStatus.failed => "failed".data

/-- The `"\n[stderr]\n"` section label (`src/exec.rs` line 310). -/
def stderrTag : Str := "\n[stderr]\n".data

/-- Result of `read_output` (`NuOutputResult`, `src/exec.rs` lines 708–715;
`took_secs` is wall-clock time and is not modelled).  The `output` and
`status` fields are character text, so buffer bytes are not re-decoded here:
the record's buffers are carried as `Bytes` in `stdoutBytes`/`stderrBytes`
and the combined display text is assembled from them. -/
structure NuOutputResult where
  id : Str
  status : Str
  stdoutBytes : Bytes
  stderrBytes : Bytes
  exitCode : Option Int
deriving DecidableEq

/-- Embedding of `read_output` (`src/exec.rs` lines 301–316): a snapshot of
the current record, returned immediately; `NotFound` for an unknown id.
The arguments structure (`NuOutputArgs`, `src/exec.rs` lines 36–40) carries
only the job id. -/
def readOutput (s : AppState) (id : Str) : Except ExecErr NuOutputResult :=
  match s.getProcess id with
  | some snap =>
    Except.ok { id := snap.id, status := statusName snap.status
                stdoutBytes := snap.stdout, stderrBytes := snap.stderr
                exitCode := snap.exitCode }
  | none => Except.error ExecErr.notFound

/-- Result of `exec_background` (`NuBgResult`, `src/exec.rs` lines 701–706). -/
structure NuBgResult where
  id : Str
  status : Str
deriving DecidableEq

/-- Embedding of `exec_background` (`src/exec.rs` lines 257–298): read the
session cwd (used only to build `wrapBackground`), spawn, register the new
record under a fresh id, detach the supervisor, return immediately. -/
def execBackground (s : AppState) (cmd newId : Str) : NuBgResult × AppState :=
  (⟨newId, "started".data⟩, s.registerProcess newId cmd)

/-- One line drained into the background job's stdout buffer by the
supervisor (`src/exec.rs` lines 624–637): `push_truncated(buf, line + "\n",
100_000)` through the `Arc`-shared buffer.  `none` models a panic inside
`push_truncated`; a write after the record was removed is invisible. -/
def monitorDrainStdout (s : AppState) (id : Str) (line : Bytes) : Option AppState :=
  match s.processes id with
  | none => some s
  | some r =>
    (pushTruncated r.stdoutBuf (line ++ [10]) 100000).map
      (fun b => s.updateRecord id (fun rr => { rr with stdoutBuf := b }))

/-- Same for the stderr drain (`src/exec.rs` lines 640–653). -/
def monitorDrainStderr (s : AppState) (id : Str) (line : Bytes) : Option AppState :=
  match s.processes id with
  | none => some s
  | some r =>
    (pushTruncated r.stderrBuf (line ++ [10]) 100000).map
      (fun b => s.updateRecord id (fun rr => { rr with stderrBuf := b }))

/-- Final status computed by the supervisor (`src/exec.rs` line 665):
`Completed` when the exit code is zero, `Failed` otherwise. -/
def statusOf (code : Int) : PStatus :=
  if code = 0 then PStatus.completed else PStatus.failed

/-- First of the supervisor's two final writes (`src/exec.rs` line 686):
`*buffers.exit_code.lock().await = Some(exit_code)`.  Its lock is released
before the status write starts. -/
def writeExitCode (s : AppState) (id : Str) (c : Int) : AppState :=
  s.updateRecord id (fun r => { r with exitCode := some c })

/-- Second final write (`src/exec.rs` line 687):
`*buffers.status.lock().await = status`. -/
def writeStatus (s : AppState) (id : Str) (st : PStatus) : AppState :=
  s.updateRecord id (fun r => { r with status := st })

/-- Both final writes of `monitor_and_drain_pipes`, run to completion. -/
def monitorFinal (s : AppState) (id : Str) (c : Int) : AppState :=
  writeStatus (writeExitCode s id c) id (statusOf c)

/-- Session working directory after a `nu.exec` call (`src/main.rs` lines
139–175).  When an explicit `cwd` argument is supplied, the handler clones
`AppState` — whose fields are `Arc`s, so the clone shares the same cwd cell —
and calls `set_cwd` on it, which therefore writes the shared session value
before execution starts.  The background path never writes the cwd; the
blocking path may rewrite it through the sentinel scan. -/
def nuExecSessionAfter (sessionCwd : Str) (argCwd : Option Str) (background : Bool)
    (timedOut : Bool) (childCode : Option Int) (stdoutF stderrF : Str) : Str :=
  let cwd1 :=
    match argCwd with
    | some c => c
    | none => sessionCwd
  if background then cwd1
  else (execBlocking cwd1 timedOut childCode stdoutF stderrF).2

/-- Modelled from the spec: `read_output(id, block)` with `block` requested
(spec §4.7 / §6) — poll the record at a fixed 100 ms interval until the
status leaves `Running` or a 300 s ceiling (3000 polls) elapses, then return
the then-current snapshot.  No such parameter or loop exists in the source
(`NuOutputArgs` has only `id`); `trace n` is the registry state at the n-th
poll. -/
def pollUntilDone (trace : Nat → AppState) (id : Str) : Nat → Nat → Except ExecErr NuOutputResult
  | t, 0 => readOutput (trace t) id
  | t, fuel + 1 =>
    match (trace t).getProcess id with
    | none => Except.error ExecErr.notFound
    | some snap =>
      if snap.status = PStatus.running then pollUntilDone trace id (t + 1) fuel
      else readOutput (trace t) id

/-- Modelled from the spec: the claimed read-output operation with its
optional `block` argument (spec §4.7: "if `block` is requested, poll the
record at a fixed short interval (e.g. every 100ms) until status leaves
`Running` or an overall wait ceiling (e.g. 300s) elapses"). -/
def readOutputSpec (trace : Nat → AppState) (id : Str) (block : Bool) :
    Except ExecErr NuOutputResult :=
  if block then pollUntilDone trace id 0 3000 else readOutput (trace 0) id

/-! Helper lemmas about `isPre` and `listFind`: `listFind` returns exactly
the position of the first occurrence, where "`ned` occurs at `i`" is the
statement `isPre ned (hay.drop i) = true`. -/

theorem isPre_length_le {α : Type} [DecidableEq α] :
    ∀ (ned l : List α), isPre ned l = true → ned.length ≤ l.length
  | [], _, _ => Nat.zero_le _
  | _ :: _, [], h => by simp [isPre] at h
  | n :: ns, m :: ms, h => by
    simp only [isPre, Bool.and_eq_true] at h
    simpa using isPre_length_le ns ms h.2

theorem isPre_getElem {α : Type} [DecidableEq α] :
    ∀ (ned l : List α), isPre ned l = true →
      ∀ j, j < ned.length → l[j]? = ned[j]?
  | [], _, _, j, hj => by simp at hj
  | _ :: _, [], h, _, _ => by simp [isPre] at h
  | n :: ns, m :: ms, h, j, hj => by
    simp only [isPre, Bool.and_eq_true, beq_iff_eq] at h
    cases j with
    | zero => simp [h.1]
    | succ k =>
      simp only [List.getElem?_cons_succ]
      exact isPre_getElem ns ms h.2 k (by simpa using hj)

theorem isPre_of_getElem {α : Type} [DecidableEq α] :
    ∀ (ned l : List α), (∀ j, j < ned.length → l[j]? = ned[j]?) →
      isPre ned l = true
  | [], _, _ => rfl
  | n :: ns, l, h => by
    have h0 : l[0]? = some n := by simpa using h 0 (by simp)
    cases l with
    | nil => simp at h0
    | cons m ms =>
      simp only [List.getElem?_cons_zero, Option.some.injEq] at h0
      simp only [isPre, Bool.and_eq_true, beq_iff_eq]
      refine ⟨h0.symm, isPre_of_getElem ns ms (fun j hj => ?_)⟩
      simpa using h (j + 1) (by simpa using hj)

theorem listFind_eq_none_of {α : Type} [DecidableEq α] :
    ∀ (hay ned : List α), (∀ i, isPre ned (hay.drop i) = false) →
      listFind hay ned = none
  | [], ned, h => by
    have h0 := h 0
    simp only [List.drop_nil] at h0
    simp [listFind, h0]
  | a :: t, ned, h => by
    have h0 := h 0
    simp only [List.drop_zero] at h0
    have ht : listFind t ned = none :=
      listFind_eq_none_of t ned (fun i => by
        have := h (i + 1)
        simpa [List.drop_succ_cons] using this)
    simp [listFind, h0, ht]

theorem listFind_eq_some_of {α : Type} [DecidableEq α] :
    ∀ (hay ned : List α) (i : Nat), isPre ned (hay.drop i) = true →
      (∀ j, j < i → isPre ned (hay.drop j) = false) →
      listFind hay ned = some i
  | [], ned, i, h1, h2 => by
    simp only [List.drop_nil] at h1
    cases i with
    | zero => simp [listFind, h1]
    | succ k =>
      have := h2 0 (Nat.succ_pos k)
      simp only [List.drop_nil] at this
      rw [h1] at this
      exact absurd this (by simp)
  | a :: t, ned, i, h1, h2 => by
    cases i with
    | zero =>
      simp only [List.drop_zero] at h1
      simp [listFind, h1]
    | succ k =>
      have h0 := h2 0 (Nat.succ_pos k)
      simp only [List.drop_zero] at h0
      have ht : listFind t ned = some k :=
        listFind_eq_some_of t ned k (by simpa [List.drop_succ_cons] using h1)
          (fun j hj => by
            have := h2 (j + 1) (by omega)
            simpa [List.drop_succ_cons] using this)
      simp [listFind, h0, ht]

/-- An occurrence needs at least `ned.length` characters of room. -/
theorem sentinelFree_of_short (s : Str) (h : s.length < sentinelStr.length) :
    sentinelFree s := by
  intro i
  by_contra hc
  rw [Bool.not_eq_false] at hc
  have hle := isPre_length_le sentinelStr (s.drop i) hc
  simp only [List.length_drop] at hle
  omega

/-- Byte string whose 900-byte cut point falls inside the 2-byte UTF-8
character `é` (bytes `0xC3 0xA9` at positions 899–900):
899 `'a'`s, `é`, then 101 more `'a'`s — 1002 bytes in total. -/
def c9Data : Bytes := List.replicate 899 97 ++ [195, 169] ++ List.replicate 101 97

/-- Record of a background job that has already exited and whose handle is
gone (the supervisor reclaimed it and finished). -/
def exitedRec : JobRecord :=
  { childPresent := false, command := "sleep 1".data, stdoutBuf := [], stderrBuf := []
    exitCode := some 0, status := PStatus.completed }

/-- Registry holding only that exited job under id `job_1`. -/
def exitedState : AppState :=
  { processes := fun k => if k = "job_1".data then some exitedRec else none, cwd := "/".data }

/-- Registry right after `exec_background` registered `job_1`: the record is
fresh (`Running`, handle present, no exit code). -/
def runningState : AppState :=
  (emptyState "/".data).registerProcess "job_1".data "sleep 9".data

/-- The same registry after the supervisor's two final writes for exit
code 0. -/
def doneState : AppState := monitorFinal runningState "job_1".data 0

/-- A poll-time trace: the job is still running at the first poll and has
completed by the second. -/
def demoTrace : Nat → AppState := fun t => if t = 0 then runningState else doneState

/-- Claim C1 (amended): an append via `push_truncated` that does not panic
either appends verbatim (total length then at most the cap), or appends the
truncation marker, and in every case the new length is at most
`max cap (buffer.length + (cap - 100) + marker.length)`; truncated content
is never dropped without the marker being present.  The originally claimed
bound `cap + marker.length` does not hold (see `C1_counterexample`): the
data-truncation branch keeps the whole existing buffer. -/
theorem C1_bounded_growth (buffer data : Bytes) (cap : Nat) (out : Bytes)
    (h : pushTruncated buffer data cap = some out) :
    out.length ≤ max cap (buffer.length + (cap - 100) + marker.length) ∧
    (out = buffer ++ data ∨ ∃ pre, out = pre ++ marker) := by
  simp only [pushTruncated] at h
  by_cases hover : buffer.length + data.length > cap
  · simp only [if_pos hover] at h
    by_cases hd : data.length > cap - 100
    · simp only [if_pos hd, sliceTo] at h
      by_cases hb : isCharBoundary data (cap - 100) = true
      · simp only [if_pos hb, Option.map_some', Option.some.injEq] at h
        subst h
        constructor
        · have hkl : (data.take (cap - 100)).length = cap - 100 := by
            rw [List.length_take]
            omega
          have : (buffer ++ data.take (cap - 100) ++ marker).length
              = buffer.length + (cap - 100) + marker.length := by
            simp [List.length_append, hkl]; omega
          rw [this]
          exact le_max_right _ _
        · exact Or.inr ⟨buffer ++ data.take (cap - 100), by simp⟩
      · simp [if_neg hb] at h
    · simp only [if_neg hd, truncateStr] at h
      have hdle : data.length ≤ cap - 100 := by omega
      by_cases hble : buffer.length ≤ cap - 100
      · simp only [if_pos hble, Option.map_some', Option.some.injEq] at h
        subst h
        refine ⟨?_, Or.inr ⟨buffer ++ data, by simp⟩⟩
        have : (buffer ++ data ++ marker).length
            = buffer.length + data.length + marker.length := by
          simp [List.length_append]; omega
        rw [this]
        have : buffer.length + data.length + marker.length
            ≤ buffer.length + (cap - 100) + marker.length := by omega
        exact le_trans this (le_max_right _ _)
      · simp only [if_neg hble] at h
        by_cases hb : isCharBoundary buffer (cap - 100) = true
        · simp only [if_pos hb, Option.map_some', Option.some.injEq] at h
          subst h
          refine ⟨?_, Or.inr ⟨buffer.take (cap - 100) ++ data, by simp⟩⟩
          have hkl : (buffer.take (cap - 100)).length ≤ buffer.length := by
            rw [List.length_take]; omega
          have : (buffer.take (cap - 100) ++ data ++ marker).length
              = (buffer.take (cap - 100)).length + data.length + marker.length := by
            simp [List.length_append]; omega
          rw [this]
          have : (buffer.take (cap - 100)).length + data.length + marker.length
              ≤ buffer.length + (cap - 100) + marker.length := by omega
          exact le_trans this (le_max_right _ _)
        · simp [if_neg hb] at h
  · simp only [if_neg hover, Option.some.injEq] at h
    subst h
    refine ⟨?_, Or.inl rfl⟩
    have : (buffer ++ data).length = buffer.length + data.length := by
      simp [List.length_append]
    rw [this]
    exact le_trans (by omega) (le_max_left _ _)

/-- Witness for `C1_bounded_growth`: appending 3 bytes to an empty buffer
with cap 2 yields exactly the marker, inside the amended bound. -/
theorem C1_bounded_growth_witness :
    marker.length ≤ max 2 ((List.length ([] : Bytes)) + (2 - 100) + marker.length) ∧
    (marker = ([] : Bytes) ++ [97, 97, 97] ∨ ∃ pre, marker = pre ++ marker) :=
  C1_bounded_growth [] [97, 97, 97] 2 marker (by decide)

set_option maxRecDepth 10000 in
/-- Counterexample to claim C1 as stated: with cap 1000, a buffer of 500
bytes and an incoming write of 950 bytes (both reachable states: the first
append of 500 bytes is verbatim), the data-truncation branch keeps the whole
existing buffer plus 900 bytes of data plus the marker — 1420 bytes, well
above `cap + marker.length = 1020`. -/
theorem C1_counterexample :
    (pushTruncated (List.replicate 500 97) (List.replicate 950 97) 1000).map List.length
        = some 1420 ∧
    1000 + marker.length < 1420 := by
  exact ⟨by decide, by decide⟩

set_option maxRecDepth 10000 in
/-- Claim C9: the code slices `&data[..remaining]` at a raw byte index.  On
`c9Data` (cut point 900 inside the two-byte `é`) with cap 1000 the slice is
not on a character boundary, so `push_truncated` panics — modelled as
`none` — instead of being total and cutting at valid boundaries as the
claim (and spec §4.1) require. -/
theorem C9_panic_mid_character :
    pushTruncated [] c9Data 1000 = none ∧ isCharBoundary c9Data 900 = false := by
  exact ⟨by decide, by decide⟩

/-- Claim C2 (amended): a blocking execution whose timeout wins the race
returns `exit_code = -1` and `success = false`; the session working
directory is unchanged provided the drained stdout does not contain the
sentinel token.  (The wrapped command's own emit step is never reached on
timeout, but the user command's output can contain the token — see
`C2_counterexample`.) -/
theorem C2_timeout_result (cwd0 stdoutF stderrF : Str) (cc : Option Int) :
    (execBlocking cwd0 true cc stdoutF stderrF).1.exitCode = -1 ∧
    (execBlocking cwd0 true cc stdoutF stderrF).1.success = false ∧
    ((∀ i, isPre sentinelStr (stdoutF.drop i) = false) →
        (execBlocking cwd0 true cc stdoutF stderrF).2 = cwd0) := by
  refine ⟨by simp [execBlocking], by simp [execBlocking], fun hfree => ?_⟩
  have hf : listFind stdoutF sentinelStr = none := listFind_eq_none_of _ _ hfree
  simp [execBlocking, extractCwd, hf]

/-- Witness for `C2_timeout_result` at a concrete timed-out call whose
drained stdout (`"out"`) has no sentinel. -/
theorem C2_timeout_result_witness :
    (execBlocking "/h".data true none ("out".data) []).1.exitCode = -1 ∧
    (execBlocking "/h".data true none ("out".data) []).1.success = false ∧
    (execBlocking "/h".data true none ("out".data) []).2 = "/h".data := by
  have h := C2_timeout_result "/h".data ("out".data) [] none
  exact ⟨h.1, h.2.1, h.2.2 (sentinelFree_of_short _ (by decide))⟩

/-- Counterexample to claim C2 as stated: a timed-out call whose child
printed `":::CWD:::/evil"` before being killed.  The sentinel scan still
runs on the drained stdout, so the session working directory is rewritten
to `"/evil"` even though the call timed out. -/
theorem C2_counterexample :
    (execBlocking "/start".data true none (":::CWD:::/evil\n".data) []).2 = "/evil".data ∧
    ("/evil".data : Str) ≠ "/start".data := by
  exact ⟨by decide, by decide⟩

/-- Claim C3: the sentinel scan of a blocking execution.  If the sentinel
does not occur in the collected stdout, the raw stdout is returned
unmodified and the session directory is unchanged; if it occurs first at
index `i`, the returned user-visible output is everything before `i`
right-trimmed, and the first line after the sentinel, trimmed, becomes the
session directory (when no line follows, the old value is rewritten
unchanged).  Stated with empty stderr so that `output` is exactly the
user-visible stdout part. -/
theorem C3_sentinel_extraction (cwd0 stdoutF : Str) (tO : Bool) (cc : Option Int) :
    ((∀ i, isPre sentinelStr (stdoutF.drop i) = false) →
        (execBlocking cwd0 tO cc stdoutF []).1.output = stdoutF ∧
        (execBlocking cwd0 tO cc stdoutF []).2 = cwd0) ∧
    (∀ i, isPre sentinelStr (stdoutF.drop i) = true →
        (∀ j, j < i → isPre sentinelStr (stdoutF.drop j) = false) →
        (execBlocking cwd0 tO cc stdoutF []).1.output = rtrimStr (stdoutF.take i) ∧
        (execBlocking cwd0 tO cc stdoutF []).2 =
          (match firstLine (stdoutF.drop (i + sentinelStr.length)) with
           | some l => trimStr l
           | none => cwd0)) := by
  constructor
  · intro hfree
    have hf : listFind stdoutF sentinelStr = none := listFind_eq_none_of _ _ hfree
    simp [execBlocking, extractCwd, hf]
  · intro i h1 h2
    have hf : listFind stdoutF sentinelStr = some i := listFind_eq_some_of _ _ i h1 h2
    simp [execBlocking, extractCwd, hf]

/-- Witness for `C3_sentinel_extraction` on `"hi\n:::CWD:::/tmp\n"` with the
first (and only) occurrence at index 3. -/
theorem C3_sentinel_extraction_witness :
    (execBlocking "/a".data false (some 0) ("hi\n:::CWD:::/tmp\n".data) []).1.output
        = rtrimStr (("hi\n:::CWD:::/tmp\n".data).take 3) ∧
    (execBlocking "/a".data false (some 0) ("hi\n:::CWD:::/tmp\n".data) []).2
        = (match firstLine (("hi\n:::CWD:::/tmp\n".data).drop (3 + sentinelStr.length)) with
           | some l => trimStr l
           | none => "/a".data) :=
  (C3_sentinel_extraction "/a".data ("hi\n:::CWD:::/tmp\n".data) false (some 0)).2 3
    (by decide) (by decide)

/-- Claim C4 (amended): the invariant "`exit_code` is `None` iff the status
is `Running`" holds in every snapshot taken at registration and in every
snapshot taken after the supervisor has completed both of its final writes.
It is not preserved between those writes: `exit_code` and `status` are
written under separate locks, exit code first — see `C4_counterexample`
for the observable window. -/
theorem C4_status_exit_code (s : AppState) (id cmd : Str) (c : Int) :
    (∀ snap, (s.registerProcess id cmd).getProcess id = some snap →
        (snap.exitCode = none ↔ snap.status = PStatus.running)) ∧
    (∀ snap, (monitorFinal s id c).getProcess id = some snap →
        (snap.exitCode = none ↔ snap.status = PStatus.running)) := by
  constructor
  · intro snap hsnap
    simp [AppState.registerProcess, AppState.getProcess, JobRecord.new] at hsnap
    subst hsnap
    simp
  · intro snap hsnap
    cases hrec : s.processes id with
    | none =>
      simp [monitorFinal, writeStatus, writeExitCode, AppState.updateRecord,
        AppState.getProcess, hrec] at hsnap
    | some r =>
      simp [monitorFinal, writeStatus, writeExitCode, AppState.updateRecord,
        AppState.getProcess, hrec] at hsnap
      subst hsnap
      by_cases hc : c = 0 <;> simp [statusOf, hc]

/-- Witness for `C4_status_exit_code`: the snapshot of a freshly registered
job satisfies the invariant. -/
theorem C4_status_exit_code_witness :
    ∃ snap, runningState.getProcess "job_1".data = some snap ∧
      (snap.exitCode = none ↔ snap.status = PStatus.running) :=
  ⟨{ id := "job_1".data, command := "sleep 9".data, status := PStatus.running
     exitCode := none, stdout := [], stderr := [] },
   by decide,
   (C4_status_exit_code (emptyState "/".data) "job_1".data "sleep 9".data 0).1 _ (by decide)⟩

/-- Counterexample to claim C4 as stated: between the supervisor's two final
writes (`src/exec.rs` lines 686–687, two separate lock acquisitions), a
`get_process` snapshot observes `exit_code = Some 0` while the status is
still `Running`. -/
theorem C4_counterexample :
    ∃ snap, (writeExitCode runningState "job_1".data 0).getProcess "job_1".data = some snap ∧
      snap.exitCode = some 0 ∧ snap.status = PStatus.running :=
  ⟨{ id := "job_1".data, command := "sleep 9".data, status := PStatus.running
     exitCode := some 0, stdout := [], stderr := [] },
   by decide, by decide, by decide⟩

/-- Claim C5: `kill_process` removes the record before touching the handle,
reports `already_exited` (not an error) when the handle is already gone, and
returns `NotFound` for an unregistered id — in particular for a second kill
of the same id, whatever the first kill returned. -/
theorem C5_kill_semantics (s : AppState) (id : Str) (k1 k2 : Bool) :
    (s.processes id = none →
        killProcess s id k1 = (Except.error ExecErr.notFound, s)) ∧
    (∀ r, s.processes id = some r → r.childPresent = false →
        (killProcess s id k1).1 = Except.ok ⟨id, "already_exited".data, r.command⟩ ∧
        ((killProcess s id k1).2).processes id = none) ∧
    (killProcess (killProcess s id k1).2 id k2).1 = Except.error ExecErr.notFound := by
  refine ⟨?_, ?_, ?_⟩
  · intro h
    simp [killProcess, AppState.removeProcess, h]
  · intro r hr hcp
    constructor
    · simp [killProcess, AppState.removeProcess, hr, hcp]
    · simp [killProcess, AppState.removeProcess, hr, hcp]
  · have hafter : ((killProcess s id k1).2).processes id = none := by
      cases hr : s.processes id with
      | none => simp [killProcess, AppState.removeProcess, hr]
      | some r =>
        by_cases hcp : r.childPresent <;>
          cases k1 <;> simp [killProcess, AppState.removeProcess, hr, hcp]
    generalize hg : (killProcess s id k1).2 = s2 at hafter ⊢
    simp [killProcess, AppState.removeProcess, hafter]

/-- Witness for `C5_kill_semantics`: killing the already-exited `job_1`
reports `already_exited`, and killing it again reports `NotFound`. -/
theorem C5_kill_semantics_witness :
    (killProcess exitedState "job_1".data true).1
        = Except.ok ⟨"job_1".data, "already_exited".data, "sleep 1".data⟩ ∧
    (killProcess (killProcess exitedState "job_1".data true).2 "job_1".data true).1
        = Except.error ExecErr.notFound := by
  have h := C5_kill_semantics exitedState "job_1".data true true
  exact ⟨(h.2.1 exitedRec (by decide) (by decide)).1, h.2.2⟩

/-- Claim C10: once the supervisor has taken the process handle out of the
record, `kill_process` still removes the record and reports
`already_exited`; the `child.kill()` outcome `k` is never consulted (the
child may well still be running). -/
theorem C10_kill_after_supervisor_take (s : AppState) (id : Str) (r : JobRecord) (k : Bool)
    (h : s.processes id = some r) (hc : r.childPresent = true) :
    (s.takeChild id).1 = some () ∧
    (killProcess (s.takeChild id).2 id k).1
        = Except.ok ⟨id, "already_exited".data, r.command⟩ ∧
    ((killProcess (s.takeChild id).2 id k).2).processes id = none := by
  have h2 : ((s.takeChild id).2).processes id = some { r with childPresent := false } := by
    simp [AppState.takeChild, AppState.updateRecord, h, hc]
  refine ⟨by simp [AppState.takeChild, h, hc], ?_, ?_⟩
  · simp [killProcess, AppState.removeProcess, h2]
  · simp [killProcess, AppState.removeProcess, h2]

/-- Witness for `C10_kill_after_supervisor_take` on the freshly registered
(still running) `job_1` after the supervisor's take. -/
theorem C10_kill_after_supervisor_take_witness :
    (runningState.takeChild "job_1".data).1 = some () ∧
    (killProcess (runningState.takeChild "job_1".data).2 "job_1".data true).1
        = Except.ok ⟨"job_1".data, "already_exited".data, "sleep 9".data⟩ ∧
    ((killProcess (runningState.takeChild "job_1".data).2 "job_1".data true).2).processes
        "job_1".data = none := by
  have h := C10_kill_after_supervisor_take runningState "job_1".data
      (JobRecord.new "sleep 9".data) true (by decide) (by decide)
  exact ⟨h.1, h.2.1, h.2.2⟩

/-- Claim C8 (amended): `read_output` takes only the job id — `NuOutputArgs`
has no `block` field — and always returns the current snapshot immediately;
an unknown id yields `NotFound`. -/
theorem C8_read_output_immediate (s : AppState) (id : Str) :
    (s.processes id = none → readOutput s id = Except.error ExecErr.notFound) ∧
    (∀ r, s.processes id = some r →
        readOutput s id = Except.ok
          { id := id, status := statusName r.status, stdoutBytes := r.stdoutBuf
            stderrBytes := r.stderrBuf, exitCode := r.exitCode }) := by
  constructor
  · intro h
    simp [readOutput, AppState.getProcess, h]
  · intro r h
    simp [readOutput, AppState.getProcess, h]

/-- Witness for `C8_read_output_immediate` on the running `job_1`. -/
theorem C8_read_output_immediate_witness :
    readOutput runningState "job_1".data = Except.ok
      { id := "job_1".data, status := "running".data, stdoutBytes := []
        stderrBytes := [], exitCode := none } :=
  (C8_read_output_immediate runningState "job_1".data).2
    (JobRecord.new "sleep 9".data) (by decide)

/-- Counterexample to claim C8 as stated: on a job that is still running at
the first poll and completed by the second, the claimed blocking read
(`readOutputSpec`, modelled from the spec's words) returns the completed
snapshot, while the code's `read_output` — which has no `block` parameter —
returns the running snapshot immediately. -/
theorem C8_counterexample :
    (readOutput (demoTrace 0) "job_1".data).map NuOutputResult.status
        = Except.ok ("running".data) ∧
    (readOutputSpec demoTrace "job_1".data true).map NuOutputResult.status
        = Except.ok ("completed".data) ∧
    ("running".data : Str) ≠ "completed".data := by
  exact ⟨rfl, rfl, by decide⟩

/-- Claim C6: evaluation of the code at the failing input.  Submitting a
background command with an explicit `cwd` argument rewrites the shared
session working directory (from `/home/user` to `/override`) even though no
blocking sentinel disclosure happened: the handler's "temporary" state is an
`Arc`-sharing clone, so its `set_cwd` writes through to the session. -/
theorem C6_explicit_cwd_rewrites_session :
    nuExecSessionAfter "/home/user".data (some "/override".data) true false none [] []
        = "/override".data ∧
    ("/override".data : Str) ≠ "/home/user".data := by
  exact ⟨by decide, by decide⟩

theorem sentinelStr_length : sentinelStr.length = 9 := by decide

/-- The background wrapper introduces no sentinel occurrence: the guard
literals share no character with the sentinel (`:`, `C`, `W`, `D`), so any
occurrence in `wrapBackground cwd cmd` would lie entirely inside `cwd` or
entirely inside `cmd`. -/
theorem sentinelFree_wrapBackground (cwd cmd : Str)
    (h1 : sentinelFree cwd) (h2 : sentinelFree cmd) :
    sentinelFree (wrapBackground cwd cmd) := by
  intro i
  by_contra hcon
  rw [Bool.not_eq_false] at hcon
  have hsl : sentinelStr.length = 9 := sentinelStr_length
  have hP : wrapGuardPre.length = 10 := by decide
  have hM : wrapGuardPost.length = 5 := by decide
  have hw : wrapBackground cwd cmd = wrapGuardPre ++ (cwd ++ (wrapGuardPost ++ cmd)) := by
    simp [wrapBackground, List.append_assoc]
  rw [hw] at hcon
  have hget : ∀ j, j < 9 →
      (wrapGuardPre ++ (cwd ++ (wrapGuardPost ++ cmd)))[i + j]? = sentinelStr[j]? := by
    intro j hj
    have h := isPre_getElem sentinelStr _ hcon j (by rw [hsl]; exact hj)
    rwa [List.getElem?_drop] at h
  by_cases hi : i < 10
  · have h0 := hget 0 (by omega)
    rw [List.getElem?_append_left (by rw [hP]; omega : i + 0 < wrapGuardPre.length)] at h0
    have hnc : ∀ p, p < 10 → wrapGuardPre[p]? ≠ sentinelStr[0]? := by decide
    exact hnc (i + 0) (by omega) h0
  · have hR : ∀ j, j < 9 →
        (cwd ++ (wrapGuardPost ++ cmd))[(i - 10) + j]? = sentinelStr[j]? := by
      intro j hj
      have h := hget j hj
      rw [List.getElem?_append_right (by rw [hP]; omega : wrapGuardPre.length ≤ i + j)] at h
      rw [hP] at h
      have he : i + j - 10 = (i - 10) + j := by omega
      rwa [he] at h
    by_cases hk1 : (i - 10) + 9 ≤ cwd.length
    · have hin : isPre sentinelStr (cwd.drop (i - 10)) = true := by
        apply isPre_of_getElem
        intro j hj
        rw [hsl] at hj
        rw [List.getElem?_drop]
        have h := hR j hj
        rwa [List.getElem?_append_left (by omega : (i - 10) + j < cwd.length)] at h
      simp [h1 (i - 10)] at hin
    · by_cases hk2 : i - 10 < cwd.length
      · have hj0 : cwd.length - (i - 10) < 9 := by omega
        have h := hR (cwd.length - (i - 10)) hj0
        rw [List.getElem?_append_right
          (by omega : cwd.length ≤ (i - 10) + (cwd.length - (i - 10)))] at h
        have he : (i - 10) + (cwd.length - (i - 10)) - cwd.length = 0 := by omega
        rw [he] at h
        rw [List.getElem?_append_left (by rw [hM]; omega : 0 < wrapGuardPost.length)] at h
        have hnc : ∀ j, j < 9 → sentinelStr[j]? ≠ wrapGuardPost[0]? := by decide
        exact hnc _ hj0 h.symm
      · have hR2 : ∀ j, j < 9 →
            (wrapGuardPost ++ cmd)[(i - 10 - cwd.length) + j]? = sentinelStr[j]? := by
          intro j hj
          have h := hR j hj
          rw [List.getElem?_append_right (by omega : cwd.length ≤ (i - 10) + j)] at h
          have he : (i - 10) + j - cwd.length = (i - 10 - cwd.length) + j := by omega
          rwa [he] at h
        by_cases hm1 : i - 10 - cwd.length < 5
        · have h := hR2 0 (by omega)
          rw [List.getElem?_append_left
            (by rw [hM]; omega : (i - 10 - cwd.length) + 0 < wrapGuardPost.length)] at h
          have hnc : ∀ p, p < 5 → wrapGuardPost[p]? ≠ sentinelStr[0]? := by decide
          exact hnc ((i - 10 - cwd.length) + 0) (by omega) h
        · have hin : isPre sentinelStr (cmd.drop (i - 10 - cwd.length - 5)) = true := by
            apply isPre_of_getElem
            intro j hj
            rw [hsl] at hj
            rw [List.getElem?_drop]
            have h := hR2 j hj
            rw [List.getElem?_append_right
              (by rw [hM]; omega : wrapGuardPost.length ≤ (i - 10 - cwd.length) + j)] at h
            rw [hM] at h
            have he : (i - 10 - cwd.length) + j - 5 = (i - 10 - cwd.length - 5) + j := by
              omega
            rwa [he] at h
          simp [h2 (i - 10 - cwd.length - 5)] at hin

/-- Claim C7: the background wrapper is only the directory-enter guard
around the command — it introduces no sentinel occurrence — and no step of
the background path (registration, the supervisor's take of the handle, the
drains, the final status/exit-code writes) ever writes the session working
directory. -/
theorem C7_background_frame (s : AppState) (cwd cmd id : Str) (line : Bytes) (c : Int) :
    (sentinelFree cwd → sentinelFree cmd → sentinelFree (wrapBackground cwd cmd)) ∧
    ((execBackground s cmd id).2).cwd = s.cwd ∧
    ((s.takeChild id).2).cwd = s.cwd ∧
    (∀ s2, monitorDrainStdout s id line = some s2 → s2.cwd = s.cwd) ∧
    (∀ s2, monitorDrainStderr s id line = some s2 → s2.cwd = s.cwd) ∧
    (monitorFinal s id c).cwd = s.cwd := by
  refine ⟨sentinelFree_wrapBackground cwd cmd, rfl, ?_, ?_, ?_, rfl⟩
  · cases h : s.processes id with
    | none => simp [AppState.takeChild, h]
    | some r =>
      by_cases hc : r.childPresent <;>
        simp [AppState.takeChild, AppState.updateRecord, h, hc]
  · intro s2 h
    cases hr : s.processes id with
    | none =>
      simp only [monitorDrainStdout, hr, Option.some.injEq] at h
      rw [← h]
    | some r =>
      simp only [monitorDrainStdout, hr] at h
      cases hp : pushTruncated r.stdoutBuf (line ++ [10]) 100000 with
      | none => rw [hp] at h; simp at h
      | some b =>
        rw [hp] at h
        simp only [Option.map_some', Option.some.injEq] at h
        rw [← h]
        rfl
  · intro s2 h
    cases hr : s.processes id with
    | none =>
      simp only [monitorDrainStderr, hr, Option.some.injEq] at h
      rw [← h]
    | some r =>
      simp only [monitorDrainStderr, hr] at h
      cases hp : pushTruncated r.stderrBuf (line ++ [10]) 100000 with
      | none => rw [hp] at h; simp at h
      | some b =>
        rw [hp] at h
        simp only [Option.map_some', Option.some.injEq] at h
        rw [← h]
        rfl

/-- Witness for `C7_background_frame` on a concrete sentinel-free cwd and
command. -/
theorem C7_background_frame_witness :
    sentinelFree (wrapBackground "/a".data "ls".data) ∧
    ((execBackground (emptyState "/a".data) "ls".data "job_1".data).2).cwd = "/a".data := by
  have h := C7_background_frame (emptyState "/a".data) "/a".data "ls".data "job_1".data [] 0
  exact ⟨h.1 (sentinelFree_of_short _ (by decide)) (sentinelFree_of_short _ (by decide)),
    h.2.1⟩
